import Mathlib

/-
Verification of the job-queue processing and deduplication lifecycle of the
auto-jobhunter repository (src/index.js), via a shallow embedding in Lean 4.

Modelling conventions:
- JavaScript strings are Lean `String`s.  `x.toLowerCase()` is modelled by
  `lowerStr` (ASCII lower-casing, sufficient for the dedup keys and keyword
  matching the program performs); `a.includes(b)` by `strIncludes a b`;
  `x.replace(/\\n/g, '\n')` by `unescapeBody`.
- A possibly-absent (undefined) JSON field is `Option String`; JavaScript
  truthiness of such a field (`if (job.hrEmail)`, `.filter(Boolean)`) is
  `truthy`, which is false for `none` and for the empty string, matching JS.
  `x || ''` is `Option.getD x ""`.
- The two flat-file documents (jobs.json and jobQueue.json) are the fields of
  `SysState`.  The program is single-process and every mutation is a
  whole-document read-modify-write (loadJobsDb / mutate / saveJobsDb), so the
  file round-trips are modelled as explicit state passing: each operation takes
  the current `SysState` and returns the updated one.
- The external collaborators are oracles passed as arguments: the SMTP
  transport outcome of each attempted send is one `Except String Unit` entry of
  a `transports` list (`.ok ()` = sendMail resolved, `.error msg` = it threw
  msg), and the Gemini discovery call of a cycle is an
  `Option (Profile × List Job)` (`none` = profile extraction failed).
- Wall-clock effects (timestamps, the 5-minute setTimeout) are not part of the
  state; the processor additionally returns an `Event` trace recording each
  send attempt and each inter-email wait, in program order, and the cycle
  returns a `CEvent` trace recording the order of discovery, queue-processing
  and enqueue steps.
-/

/-- Model of JavaScript `String.prototype.toLowerCase` (ASCII range). -/
def lowerStr (s : String) : String := ⟨s.data.map Char.toLower⟩

/-- Does the character list `needle` occur at the start of `hay`? -/
def startsWithL : List Char → List Char → Bool
  | [], _ => true
  | _ :: _, [] => false
  | a :: as, b :: bs => a == b && startsWithL as bs

/-- Does the character list `needle` occur contiguously anywhere in `hay`? -/
def infixOfL (needle hay : List Char) : Bool :=
  startsWithL needle hay ||
    match hay with
    | [] => false
    | _ :: bs => infixOfL needle bs

/-- Model of JavaScript `hay.includes(needle)`. -/
def strIncludes (hay needle : String) : Bool := infixOfL needle.data hay.data

/-- One left-to-right pass replacing every literal backslash-n pair by a real
newline, on character lists. -/
def replNl : List Char → List Char
  | '\\' :: 'n' :: rest => '\n' :: replNl rest
  | c :: rest => c :: replNl rest
  | [] => []

/-- Model of `(job.emailBody || '').replace(/\\n/g, '\n')`'s replace step. -/
def unescapeBody (s : String) : String := ⟨replNl s.data⟩

/-- JavaScript truthiness of a possibly-absent string field: `undefined` and
the empty string are falsy. -/
def truthy : Option String → Bool
  | none => false
  | some s => !s.data.isEmpty

/-- Model of `x || ''` for a possibly-absent string. -/
def orEmpty (x : Option String) : String := x.getD ""

-- Constants from src/index.js lines 20-21.

/-- Rate limit: 12 emails per run (src/index.js line 20). -/
def MAX_EMAILS_PER_RUN : Nat := 12

/-- 5 minutes between emails, in milliseconds (src/index.js line 21). -/
def EMAIL_INTERVAL_MS : Nat := 5 * 60 * 1000

/-- A job listing as produced by discovery (the `jobs` array entries of the
Gemini response, src/index.js lines 316-333).  Required JSON fields are plain
strings; fields the code guards for absence are `Option String`. -/
structure Job where
  company : String
  role : String := ""
  snippet : String := ""
  requirements : Option String := none
  workType : Option String := none
  companyType : Option String := none
  isFamous : Bool := false
  fundingStage : Option String := none
  hrEmail : Option String := none
  decisionMakerEmail : Option String := none
  emailSubject : Option String := none
  emailBody : Option String := none
deriving DecidableEq, Repr

/-- Outcome status stored in a history record (`status: 'sent' | 'failed'`). -/
inductive JobStatus where
  | sent
  | failed
deriving DecidableEq, Repr

/-- An entry of `db.jobs`: the job spread together with its outcome
(src/index.js lines 113-117 and 135-140; the wall-clock `sentAt`/`failedAt`
timestamps are not modelled). -/
structure HistoryRecord where
  job : Job
  status : JobStatus
  errorMessage : Option String := none
deriving DecidableEq, Repr

/-- The jobs.json document: `{ jobs, sentEmails, sentCompanies }`. -/
structure JobsDb where
  jobs : List HistoryRecord := []
  sentEmails : List String := []
  sentCompanies : List String := []
deriving DecidableEq, Repr

/-- The default empty database returned when jobs.json is absent or
unparseable (src/index.js line 56). -/
def emptyJobsDb : JobsDb := ⟨[], [], []⟩

/-- The persisted state the program mutates: jobs.json plus jobQueue.json. -/
structure SysState where
  db : JobsDb
  queue : List Job
deriving DecidableEq, Repr

/-- `loadJobsDb` (src/index.js lines 51-58): try to read and parse the file;
any failure of either step yields the empty default.  The read result and the
JSON parser are the explicit inputs of the try block. -/
def loadJobsDb (readResult : Option String) (parse : String → Option JobsDb) : JobsDb :=
  match readResult with
  | none => emptyJobsDb
  | some data =>
    match parse data with
    | none => emptyJobsDb
    | some db => db

/-- `loadQueue` (src/index.js lines 65-72): same shape, default `[]`. -/
def loadQueue (readResult : Option String) (parse : String → Option (List Job)) : List Job :=
  match readResult with
  | none => []
  | some data =>
    match parse data with
    | none => []
    | some queue => queue

/-- `addJobsToQueue` (src/index.js lines 78-83): load, push, save. -/
def addJobsToQueue (jobs : List Job) (queue : List Job) : List Job :=
  queue ++ jobs

/-- `removeJobFromQueue` (src/index.js lines 85-93): splice out the entry at
`jobIndex` when the index is in range, returning it; otherwise return null and
leave the queue unchanged. -/
def removeJobFromQueue (jobIndex : Nat) (queue : List Job) : Option Job × List Job :=
  if h : jobIndex < queue.length then
    (some (queue.get ⟨jobIndex, h⟩), queue.eraseIdx jobIndex)
  else
    (none, queue)

/-- `isEmailSent` (src/index.js lines 100-103). -/
def isEmailSent (db : JobsDb) (email : String) : Bool :=
  db.sentEmails.contains (lowerStr email)

/-- `isCompanySent` (src/index.js lines 105-108). -/
def isCompanySent (db : JobsDb) (company : String) : Bool :=
  db.sentCompanies.contains (lowerStr company)

/-- The lower-cased recipient emails `markJobSent` pushes onto `sentEmails`:
hrEmail if truthy, then decisionMakerEmail if truthy (src/index.js
lines 119-124). -/
def sentEmailEntries (job : Job) : List String :=
  (if truthy job.hrEmail then [lowerStr (orEmpty job.hrEmail)] else [])
    ++ (if truthy job.decisionMakerEmail then [lowerStr (orEmpty job.decisionMakerEmail)] else [])

/-- `markJobSent` (src/index.js lines 110-130): append a `sent` history
record, push both truthy recipient emails (lower-cased) and the lower-cased
company onto the dedup sets. -/
def markJobSent (job : Job) (db : JobsDb) : JobsDb :=
  { jobs := db.jobs ++ [{ job := job, status := JobStatus.sent }],
    sentEmails := db.sentEmails ++ sentEmailEntries job,
    sentCompanies := db.sentCompanies ++ [lowerStr job.company] }

/-- `markJobFailed` (src/index.js lines 132-145): append a `failed` history
record carrying the error message and push only the lower-cased company onto
the dedup sets (not the emails). -/
def markJobFailed (job : Job) (errorMessage : String) (db : JobsDb) : JobsDb :=
  { jobs := db.jobs ++ [{ job := job, status := JobStatus.failed, errorMessage := some errorMessage }],
    sentEmails := db.sentEmails,
    sentCompanies := db.sentCompanies ++ [lowerStr job.company] }

/-- The candidate's skill lists (`profile.skills`, src/index.js prompt schema
lines 261-267); a category absent from the JSON is the empty list. -/
structure Skills where
  programmingLanguages : List String := []
  frameworks : List String := []
  databases : List String := []
  tools : List String := []
  other : List String := []
deriving DecidableEq, Repr

/-- The candidate profile; only the fields the core reads are modelled. -/
structure Profile where
  name : Option String := none
  skills : Option Skills := none
deriving DecidableEq, Repr

/-- `[...(profile.skills?.programmingLanguages || []), ...]` — the five skill
categories concatenated in source order (src/index.js lines 202-208). -/
def allSkills (profile : Profile) : List String :=
  match profile.skills with
  | none => []
  | some sk =>
    sk.programmingLanguages ++ sk.frameworks ++ sk.databases ++ sk.tools ++ sk.other

/-- `scoreJob` (src/index.js lines 185-222), translated statement by
statement: the accumulator starts at 0 and each block adds its bonus. -/
def scoreJob (job : Job) (profile : Profile) : Nat :=
  let workType := lowerStr (orEmpty job.workType)
  let s1 : Nat :=
    if workType = "remote" then 100
    else if workType = "hybrid" then 50
    else if workType = "onsite" then 10
    else 0
  let companyType := lowerStr (orEmpty job.companyType)
  let s2 := s1 + (if strIncludes companyType "foreign" || strIncludes companyType "international" then 40 else 0)
  let s3 := s2 + (if strIncludes companyType "startup" then 30 else 0)
  let s4 := s3 + (if job.isFamous then 25 else 0)
  let jobDescription := lowerStr (job.role ++ " " ++ job.snippet ++ " " ++ orEmpty job.requirements)
  let matchedSkills := ((allSkills profile).filter (fun skill => strIncludes jobDescription (lowerStr skill))).length
  let s5 := s4 + matchedSkills * 15
  let funding := lowerStr (orEmpty job.fundingStage)
  let s6 := s5 + (if strIncludes funding "series b" || strIncludes funding "series c" then 20
                  else if strIncludes funding "series a" then 15 else 0)
  s6

/-- `sendEmail` (src/index.js lines 495-524): filter falsy recipients; if none
remain, throw 'No valid recipients' before touching the transport; otherwise
the outcome is the transport's (`transporter.sendMail` resolving or
throwing). -/
def sendEmail (recipients : List (Option String)) (transport : Except String Unit) : Except String Unit :=
  let toList := recipients.filter truthy
  if toList.length = 0 then Except.error "No valid recipients"
  else transport

/-- Outcome of processing one queued job in the processor loop. -/
inductive Outcome where
  | sent
  | failedMsg (msg : String)
deriving DecidableEq, Repr

/-- One iteration of the `processJobQueue` loop body (src/index.js
lines 563-598): build the recipient list, unescape the body, throw on empty
body, send; on success `markJobSent` then `removeJobFromQueue(0)`; on any
thrown error `markJobFailed` with the message and leave the queue alone. -/
def processJob (job : Job) (transport : Except String Unit) (s : SysState) : Outcome × SysState :=
  let recipients := [job.hrEmail] ++ (if truthy job.decisionMakerEmail then [job.decisionMakerEmail] else [])
  let body := unescapeBody (orEmpty job.emailBody)
  if body.data.isEmpty then
    (Outcome.failedMsg "No email body generated",
      { s with db := markJobFailed job "No email body generated" s.db })
  else
    match sendEmail recipients transport with
    | Except.ok _ =>
      (Outcome.sent,
        { db := markJobSent job s.db, queue := (removeJobFromQueue 0 s.queue).2 })
    | Except.error msg =>
      (Outcome.failedMsg msg,
        { s with db := markJobFailed job msg s.db })

/-- Events of a processor run: a send attempt on a job with its outcome, or a
deliberate wait of the given number of milliseconds. -/
inductive Event where
  | attempt (job : Job) (o : Outcome)
  | wait (ms : Nat)
deriving DecidableEq, Repr

/-- Is this event a send attempt (rather than a wait)? -/
def isAttempt : Event → Bool
  | Event.attempt _ _ => true
  | Event.wait _ => false

/-- The jobs attempted in a trace, in order. -/
def attemptedJobs (evs : List Event) : List Job :=
  evs.filterMap (fun e =>
    match e with
    | Event.attempt j _ => some j
    | Event.wait _ => none)

/-- The `for` loop of `processJobQueue` over the snapshot slice
`jobsToProcess` (src/index.js lines 563-604): process each job against the
current persisted state, consuming one transport oracle entry per attempt, and
wait `EMAIL_INTERVAL_MS` after every item except the last.  Returns
(sentCount, failedCount, final state, event trace). -/
def processSlice : List Job → List (Except String Unit) → SysState → Nat × Nat × SysState × List Event
  | [], _, s => (0, 0, s, [])
  | job :: rest, ts, s =>
    let r := processJob job (ts.headD (Except.ok ())) s
    let r2 := processSlice rest ts.tail r.2
    let sc : Nat := match r.1 with | Outcome.sent => 1 | Outcome.failedMsg _ => 0
    let fc : Nat := match r.1 with | Outcome.sent => 0 | Outcome.failedMsg _ => 1
    (sc + r2.1, fc + r2.2.1, r2.2.2.1,
      (Event.attempt job r.1 :: (if rest.isEmpty then [] else [Event.wait EMAIL_INTERVAL_MS]))
        ++ r2.2.2.2)

/-- `processJobQueue` (src/index.js lines 534-610): return 0 at once on an
empty queue; otherwise take the whole queue (`clearAll`, Unbounded mode) or
its first `MAX_EMAILS_PER_RUN` entries (Bounded mode) as the working slice and
run the loop.  Returns (sentCount, final state, event trace). -/
def processJobQueue (clearAll : Bool) (transports : List (Except String Unit)) (s : SysState) :
    Nat × SysState × List Event :=
  if s.queue.length = 0 then (0, s, [])
  else
    let jobsToProcess := if clearAll then s.queue else s.queue.take MAX_EMAILS_PER_RUN
    let r := processSlice jobsToProcess transports s
    (r.1, r.2.2.1, r.2.2.2)

/-- Coarse events of one orchestrator cycle: the single Gemini
discovery/analysis call, a Bounded queue-processing pass, and an enqueue of
`n` filtered listings. -/
inductive CEvent where
  | discover
  | process
  | enqueue (n : Nat)
deriving DecidableEq, Repr

/-- The `Filtering already contacted` loop of `runJobApplicationCycle`
(src/index.js lines 652-667): keep a job unless its truthy hrEmail is already
in `sentEmails` or its company is already in `sentCompanies`.  Each check
re-loads jobs.json, which nothing mutates during the loop, so the database is
a constant here. -/
def filterNewJobs (db : JobsDb) (jobs : List Job) : List Job :=
  jobs.filter (fun job =>
    let hrEmailSent := if truthy job.hrEmail then isEmailSent db (orEmpty job.hrEmail) else false
    let companySent := isCompanySent db job.company
    !hrEmailSent && !companySent)

/-- The tail of the scheduled cycle after the existing-queue pass
(src/index.js lines 647-677): skip if discovery found nothing, filter against
the dedup sets, skip if nothing survives, else append the survivors to the
queue and run the Bounded processor again. -/
def continueCycle (jobs : List Job) (t2 : List (Except String Unit)) (s1 : SysState)
    (tr : List CEvent) : SysState × List CEvent :=
  if jobs.isEmpty then (s1, tr)
  else
    let newJobs := filterNewJobs s1.db jobs
    if newJobs.isEmpty then (s1, tr)
    else
      let s2 : SysState := { db := s1.db, queue := addJobsToQueue newJobs s1.queue }
      let r := processJobQueue false t2 s2
      (r.2.1, tr ++ [CEvent.enqueue newJobs.length, CEvent.process])

/-- `runJobApplicationCycle` (src/index.js lines 612-696), the scheduled
cycle: upload the resume and make the single Gemini call (the `discovery`
oracle — `none` models a failed profile extraction, which skips the cycle);
then, if the persisted queue is non-empty, run the Bounded processor and stop
if it reports at least `MAX_EMAILS_PER_RUN` successful sends; otherwise
continue with filter / enqueue / second Bounded pass.  `t1` and `t2` are the
transport oracles of the two processor passes. -/
def runJobApplicationCycle (discovery : Option (Profile × List Job))
    (t1 t2 : List (Except String Unit)) (s : SysState) : SysState × List CEvent :=
  match discovery with
  | none => (s, [CEvent.discover])
  | some (_profile, jobs) =>
    if s.queue.length > 0 then
      let r1 := processJobQueue false t1 s
      if r1.1 ≥ MAX_EMAILS_PER_RUN then
        (r1.2.1, [CEvent.discover, CEvent.process])
      else
        continueCycle jobs t2 r1.2.1 [CEvent.discover, CEvent.process]
    else
      continueCycle jobs t2 s [CEvent.discover]

/-- The state-mutating operations the running program ever performs on the
persisted documents, used to state append-only invariants over arbitrary
execution histories. -/
inductive Op where
  | markSent (job : Job)
  | markFailed (job : Job) (msg : String)
  | addJobs (jobs : List Job)
  | removeFront
  | processQueue (clearAll : Bool) (ts : List (Except String Unit))
  | runCycle (discovery : Option (Profile × List Job)) (t1 t2 : List (Except String Unit))

/-- Apply one operation to the persisted state. -/
def applyOp : Op → SysState → SysState
  | Op.markSent job, s => { s with db := markJobSent job s.db }
  | Op.markFailed job msg, s => { s with db := markJobFailed job msg s.db }
  | Op.addJobs jobs, s => { s with queue := addJobsToQueue jobs s.queue }
  | Op.removeFront, s => { s with queue := (removeJobFromQueue 0 s.queue).2 }
  | Op.processQueue clearAll ts, s => (processJobQueue clearAll ts s).2.1
  | Op.runCycle d t1 t2, s => (runJobApplicationCycle d t1 t2 s).1

/-- Apply a sequence of operations in order. -/
def applyOps : List Op → SysState → SysState
  | [], s => s
  | op :: rest, s => applyOps rest (applyOp op s)

/-- Concrete listing for the C3 witness, success branch. -/
def j3a : Job :=
  { company := "Acme", hrEmail := some "HR@Acme.com",
    decisionMakerEmail := some "CTO@Acme.com", emailBody := some "hello" }

/-- Concrete listing for the C3 witness, failure branch. -/
def j3b : Job :=
  { company := "Umbrella", hrEmail := some "hr@umbrella.com", emailBody := some "hi" }

/-- Concrete listing without any recipient email for the C8 witness. -/
def j8 : Job := { company := "Stealth Startup", emailBody := some "body text" }

/-- First queued listing in the C1 run; its send fails. -/
def jobA1 : Job :=
  { company := "Alpha Labs", role := "Backend Engineer",
    hrEmail := some "hr@alphalabs.io", emailBody := some "application one" }

/-- Second queued listing in the C1 run; its send succeeds. -/
def jobB1 : Job :=
  { company := "Beta Systems", role := "Platform Engineer",
    hrEmail := some "hr@betasystems.io", emailBody := some "application two" }

/-- Queued listing used in the C2 counterexample run. -/
def jobQ2 : Job :=
  { company := "Gamma Corp", role := "Engineer",
    hrEmail := some "talent@gammacorp.io", emailBody := some "application text" }

/-- Discovered listing used in the C2 counterexample run. -/
def jobD2 : Job :=
  { company := "Delta Works", role := "Engineer",
    hrEmail := some "jobs@deltaworks.io", emailBody := some "application text" }

/-- Profile used in the C2 counterexample run. -/
def prof2 : Profile := { name := some "Candidate" }

/-- One string list extends another by appending only. -/
def grows (old new : List String) : Prop := ∃ t, new = old ++ t

/-- Both dedup sets of the second database extend those of the first by
appending only. -/
def dedupGrows (d1 d2 : JobsDb) : Prop :=
  grows d1.sentEmails d2.sentEmails ∧ grows d1.sentCompanies d2.sentCompanies

/-- Listing whose send fails in the C6 witness run. -/
def j6 : Job := { company := "Acme", emailBody := some "text" }

/-- First same-company listing of the C7 witness batch. -/
def j7a : Job :=
  { company := "Orion AI", role := "Backend Engineer",
    hrEmail := some "hr@orion.ai", emailBody := some "first application" }

/-- Second same-company listing of the C7 witness batch. -/
def j7b : Job :=
  { company := "Orion AI", role := "Frontend Engineer",
    hrEmail := some "talent@orion.ai", emailBody := some "second application" }

/-- Profile used in the C7 witness run. -/
def p7 : Profile := {}

/-- Claim C4: for every listing and profile, `scoreJob` is the deterministic
pure sum of the work-type weight (remote=100, hybrid=50, onsite=10, other=0),
+40 when companyType contains "foreign" or "international", independently +30
when it contains "startup", +25 when isFamous, +15 per profile skill token
found case-insensitively in the single concatenation of role, snippet and
requirements (at most +15 per skill), and the funding bonus (+20 for
"series b"/"series c", else +15 for "series a"). -/
theorem claim4_scoreJob_is_additive_point_sum (job : Job) (profile : Profile) :
    scoreJob job profile =
      (if lowerStr (orEmpty job.workType) = "remote" then 100
        else if lowerStr (orEmpty job.workType) = "hybrid" then 50
        else if lowerStr (orEmpty job.workType) = "onsite" then 10
        else 0)
      + (if strIncludes (lowerStr (orEmpty job.companyType)) "foreign"
            || strIncludes (lowerStr (orEmpty job.companyType)) "international" then 40 else 0)
      + (if strIncludes (lowerStr (orEmpty job.companyType)) "startup" then 30 else 0)
      + (if job.isFamous then 25 else 0)
      + 15 * (allSkills profile).countP
          (fun skill =>
            strIncludes (lowerStr (job.role ++ " " ++ job.snippet ++ " " ++ orEmpty job.requirements))
              (lowerStr skill))
      + (if strIncludes (lowerStr (orEmpty job.fundingStage)) "series b"
            || strIncludes (lowerStr (orEmpty job.fundingStage)) "series c" then 20
        else if strIncludes (lowerStr (orEmpty job.fundingStage)) "series a" then 15
        else 0) := by
  simp only [scoreJob, List.countP_eq_length_filter]
  ring

/-- Claim C9: on an empty persisted queue, `processJobQueue` returns 0 at once
and both documents are left untouched, in either mode. -/
theorem claim9_empty_queue_is_noop (db : JobsDb) (clearAll : Bool)
    (ts : List (Except String Unit)) :
    processJobQueue clearAll ts { db := db, queue := [] }
      = (0, { db := db, queue := [] }, []) := rfl

/-- Claim C10: when the backing file is absent (no read result) or its content
does not parse, `loadJobsDb` yields the empty default database and `loadQueue`
yields the empty sequence instead of raising. -/
theorem claim10_load_failure_defaults (parseDb : String → Option JobsDb)
    (parseQ : String → Option (List Job)) :
    loadJobsDb none parseDb = { jobs := [], sentEmails := [], sentCompanies := [] }
    ∧ (∀ raw, parseDb raw = none →
        loadJobsDb (some raw) parseDb = { jobs := [], sentEmails := [], sentCompanies := [] })
    ∧ loadQueue none parseQ = []
    ∧ (∀ raw, parseQ raw = none → loadQueue (some raw) parseQ = []) := by
  refine ⟨rfl, ?_, rfl, ?_⟩ <;> intro raw h <;> simp [loadJobsDb, loadQueue, h, emptyJobsDb]

/-- Witness for C10 at a concrete unreadable/unparseable input. -/
theorem claim10_load_failure_defaults_witness :
    loadJobsDb none (fun _ => none) = { jobs := [], sentEmails := [], sentCompanies := [] }
    ∧ loadJobsDb (some "not json") (fun _ => none)
        = { jobs := [], sentEmails := [], sentCompanies := [] }
    ∧ loadQueue none (fun _ => none) = []
    ∧ loadQueue (some "not json") (fun _ => none) = [] := by
  obtain ⟨h1, h2, h3, h4⟩ := claim10_load_failure_defaults (fun _ => none) (fun _ => none)
  exact ⟨h1, h2 "not json" rfl, h3, h4 "not json" rfl⟩

/-- Claim C3: per processed listing, success appends a sent record and adds
both truthy recipient emails (lower-cased) plus the company to the dedup sets;
any failure appends a failed record carrying the error message, adds the
company but not the emails, and leaves the queue untouched. -/
theorem claim3_per_listing_outcomes (job : Job) (transport : Except String Unit) (s : SysState) :
    ((processJob job transport s).1 = Outcome.sent →
      (processJob job transport s).2.db.jobs
          = s.db.jobs ++ [{ job := job, status := JobStatus.sent }]
      ∧ (processJob job transport s).2.db.sentEmails
          = s.db.sentEmails
            ++ ((if truthy job.hrEmail then [lowerStr (orEmpty job.hrEmail)] else [])
              ++ (if truthy job.decisionMakerEmail then [lowerStr (orEmpty job.decisionMakerEmail)] else []))
      ∧ (processJob job transport s).2.db.sentCompanies
          = s.db.sentCompanies ++ [lowerStr job.company])
    ∧ ∀ msg, (processJob job transport s).1 = Outcome.failedMsg msg →
      (processJob job transport s).2.db.jobs
          = s.db.jobs ++ [{ job := job, status := JobStatus.failed, errorMessage := some msg }]
      ∧ (processJob job transport s).2.db.sentEmails = s.db.sentEmails
      ∧ (processJob job transport s).2.db.sentCompanies = s.db.sentCompanies ++ [lowerStr job.company]
      ∧ (processJob job transport s).2.queue = s.queue := by
  simp only [processJob]
  split
  · constructor
    · intro h; exact absurd h (by simp)
    · intro msg h
      simp only [Outcome.failedMsg.injEq] at h
      subst h
      simp [markJobFailed]
  · split
    · constructor
      · intro _
        simp [markJobSent, sentEmailEntries]
      · intro msg h; exact absurd h (by simp)
    · constructor
      · intro h; exact absurd h (by simp)
      · intro msg h
        simp only [Outcome.failedMsg.injEq] at h
        subst h
        simp [markJobFailed]

/-- Witness for C3: a successful send records both lower-cased recipients, a
transport failure records no email and keeps the queue unchanged. -/
theorem claim3_per_listing_outcomes_witness :
    (processJob j3a (Except.ok ()) { db := emptyJobsDb, queue := [j3a] }).2.db.sentEmails
        = ["hr@acme.com", "cto@acme.com"]
    ∧ (processJob j3b (Except.error "SMTP timeout")
        { db := emptyJobsDb, queue := [j3b] }).2.db.sentEmails = []
    ∧ (processJob j3b (Except.error "SMTP timeout")
        { db := emptyJobsDb, queue := [j3b] }).2.queue = [j3b] := by
  have hs := (claim3_per_listing_outcomes j3a (Except.ok ())
    { db := emptyJobsDb, queue := [j3a] }).1 (by decide)
  have hf := (claim3_per_listing_outcomes j3b (Except.error "SMTP timeout")
    { db := emptyJobsDb, queue := [j3b] }).2 "SMTP timeout" (by decide)
  exact ⟨hs.2.1.trans (by decide), hf.2.1.trans (by decide), hf.2.2.2.trans (by decide)⟩

/-- Unescaping newlines never turns a non-empty body into an empty one. -/
lemma replNl_eq_nil_iff (l : List Char) : replNl l = [] ↔ l = [] := by
  constructor
  · intro h
    cases l with
    | nil => rfl
    | cons c rest =>
      rw [replNl.eq_def] at h
      revert h
      split <;> simp_all
  · intro h
    subst h
    rfl

/-- Claim C8: a listing with neither recipient email passes the
already-contacted filter (no pre-validation of recipient presence), and when
processed its send fails with 'No valid recipients' and it takes the failure
path: a failed record is appended and the queue is left as it was. -/
theorem claim8_missing_recipients_fail_path (job : Job) (db : JobsDb) (s : SysState)
    (transport : Except String Unit)
    (h1 : job.hrEmail = none) (h2 : job.decisionMakerEmail = none)
    (h3 : isCompanySent db job.company = false)
    (h4 : truthy job.emailBody = true) :
    filterNewJobs db [job] = [job]
    ∧ sendEmail [job.hrEmail] transport = Except.error "No valid recipients"
    ∧ (processJob job transport s).1 = Outcome.failedMsg "No valid recipients"
    ∧ (processJob job transport s).2.queue = s.queue
    ∧ (processJob job transport s).2.db.jobs
        = s.db.jobs
          ++ [{ job := job, status := JobStatus.failed, errorMessage := some "No valid recipients" }] := by
  have hbody : (unescapeBody (orEmpty job.emailBody)).data.isEmpty = false := by
    cases hb : job.emailBody with
    | none => rw [hb] at h4; simp [truthy] at h4
    | some b =>
      rw [hb] at h4
      simp only [truthy, Bool.not_eq_true'] at h4
      simp only [unescapeBody, orEmpty, Option.getD_some]
      rw [List.isEmpty_eq_false] at h4 ⊢
      intro hc
      exact h4 ((replNl_eq_nil_iff b.data).mp hc)
  refine ⟨?_, ?_, ?_, ?_, ?_⟩
  · simp [filterNewJobs, h1, h3, truthy]
  · simp [sendEmail, h1, truthy]
  · simp [processJob, hbody, sendEmail, h1, h2, truthy, markJobFailed]
  · simp [processJob, hbody, sendEmail, h1, h2, truthy, markJobFailed]
  · simp [processJob, hbody, sendEmail, h1, h2, truthy, markJobFailed]

/-- Witness for C8 at a concrete recipient-less listing. -/
theorem claim8_missing_recipients_fail_path_witness :
    filterNewJobs emptyJobsDb [j8] = [j8]
    ∧ (processJob j8 (Except.ok ()) { db := emptyJobsDb, queue := [j8] }).1
        = Outcome.failedMsg "No valid recipients"
    ∧ (processJob j8 (Except.ok ()) { db := emptyJobsDb, queue := [j8] }).2.queue = [j8] := by
  have h := claim8_missing_recipients_fail_path j8 emptyJobsDb
    { db := emptyJobsDb, queue := [j8] } (Except.ok ()) rfl rfl (by decide) (by decide)
  exact ⟨h.1, h.2.2.1, h.2.2.2.1.trans rfl⟩

/-- Attempted jobs of a trace starting with a wait. -/
lemma attemptedJobs_cons_wait (ms : Nat) (r : List Event) :
    attemptedJobs (Event.wait ms :: r) = attemptedJobs r := rfl

/-- Attempted jobs of a trace starting with an attempt. -/
lemma attemptedJobs_cons_attempt (j : Job) (o : Outcome) (r : List Event) :
    attemptedJobs (Event.attempt j o :: r) = j :: attemptedJobs r := rfl

/-- Filtering attempts past a leading wait. -/
lemma filter_isAttempt_cons_wait (ms : Nat) (r : List Event) :
    (Event.wait ms :: r).filter isAttempt = r.filter isAttempt := rfl

/-- Filtering attempts keeps a leading attempt. -/
lemma filter_isAttempt_cons_attempt (j : Job) (o : Outcome) (r : List Event) :
    (Event.attempt j o :: r).filter isAttempt = Event.attempt j o :: r.filter isAttempt := rfl

/-- Unfolding of the processor loop trace on a non-empty slice, keeping the
recursive call folded. -/
lemma processSlice_events_cons (job : Job) (rest : List Job) (ts : List (Except String Unit))
    (s : SysState) :
    (processSlice (job :: rest) ts s).2.2.2
      = Event.attempt job (processJob job (ts.headD (Except.ok ())) s).1
          :: ((if rest.isEmpty then [] else [Event.wait EMAIL_INTERVAL_MS])
            ++ (processSlice rest ts.tail (processJob job (ts.headD (Except.ok ())) s).2).2.2.2) := rfl

/-- A trace whose attempt filter is empty attempts no jobs. -/
lemma attemptedJobs_eq_nil_of_filter (evs : List Event) (h : evs.filter isAttempt = []) :
    attemptedJobs evs = [] := by
  induction evs with
  | nil => rfl
  | cons e r ih =>
    cases e with
    | attempt j o => rw [filter_isAttempt_cons_attempt] at h; cases h
    | wait ms =>
      rw [filter_isAttempt_cons_wait] at h
      rw [attemptedJobs_cons_wait]
      exact ih h

/-- Structure of one processor loop: it attempts exactly the jobs of the
slice, in order, and its trace is those attempts separated by single
`EMAIL_INTERVAL_MS` waits (none trailing). -/
lemma processSlice_trace (jobs : List Job) (ts : List (Except String Unit)) (s : SysState) :
    attemptedJobs (processSlice jobs ts s).2.2.2 = jobs
    ∧ (processSlice jobs ts s).2.2.2
        = List.intersperse (Event.wait EMAIL_INTERVAL_MS)
            ((processSlice jobs ts s).2.2.2.filter isAttempt) := by
  induction jobs generalizing ts s with
  | nil => simp [processSlice, attemptedJobs]
  | cons job rest ih =>
    obtain ⟨ih1, ih2⟩ := ih ts.tail (processJob job (ts.headD (Except.ok ())) s).2
    cases rest with
    | nil =>
      simp [processSlice, attemptedJobs, isAttempt]
    | cons j2 r2 =>
      rw [processSlice_events_cons]
      simp only [List.isEmpty_cons, Bool.false_eq_true, if_false, List.singleton_append]
      rw [filter_isAttempt_cons_attempt, filter_isAttempt_cons_wait,
        attemptedJobs_cons_attempt, attemptedJobs_cons_wait]
      refine ⟨by rw [ih1], ?_⟩
      obtain ⟨f, fr, hf⟩ : ∃ f fr,
          ((processSlice (j2 :: r2) ts.tail
            (processJob job (ts.headD (Except.ok ())) s).2).2.2.2).filter isAttempt = f :: fr := by
        cases hfe : ((processSlice (j2 :: r2) ts.tail
            (processJob job (ts.headD (Except.ok ())) s).2).2.2.2).filter isAttempt with
        | nil =>
          rw [attemptedJobs_eq_nil_of_filter _ hfe] at ih1
          cases ih1
        | cons f fr => exact ⟨f, fr, rfl⟩
      rw [hf]
      have hstep : List.intersperse (Event.wait EMAIL_INTERVAL_MS)
          (Event.attempt job (processJob job (ts.headD (Except.ok ())) s).1 :: f :: fr)
          = Event.attempt job (processJob job (ts.headD (Except.ok ())) s).1
            :: Event.wait EMAIL_INTERVAL_MS :: List.intersperse (Event.wait EMAIL_INTERVAL_MS) (f :: fr) := by
        simp [List.intersperse]
      rw [hstep, ← hf, ← ih2]

/-- Claim C5: within one `processJobQueue` invocation the trace is the send
attempts of the working slice separated by single fixed 5-minute waits — the
same wait after a success as after a failure, none after the last item — and
the slice is the whole queue in Unbounded (`clearAll`) mode versus the first
`MAX_EMAILS_PER_RUN` items in Bounded mode. -/
theorem claim5_fixed_interval_spacing (clearAll : Bool) (ts : List (Except String Unit))
    (s : SysState) :
    attemptedJobs (processJobQueue clearAll ts s).2.2
        = (if clearAll then s.queue else s.queue.take MAX_EMAILS_PER_RUN)
    ∧ (processJobQueue clearAll ts s).2.2
        = List.intersperse (Event.wait EMAIL_INTERVAL_MS)
            ((processJobQueue clearAll ts s).2.2.filter isAttempt)
    ∧ EMAIL_INTERVAL_MS = 5 * 60 * 1000 := by
  simp only [processJobQueue]
  split
  · rename_i h
    have hq : s.queue = [] := List.length_eq_zero.mp h
    refine ⟨by simp [hq, attemptedJobs], by simp [attemptedJobs], rfl⟩
  · exact ⟨(processSlice_trace _ ts s).1, (processSlice_trace _ ts s).2, rfl⟩

/-- Claim C1 evaluated at its own scenario (queue of two, first send fails,
second succeeds): the loop iterates over a snapshot slice but every success
removes index 0 of the persisted queue, so the success of the second listing
removes the previously failed first listing; the queue afterwards holds only
the successfully sent listing, not the failed one, even though the history
records the first as failed and the second as sent. -/
theorem claim1_failed_listing_evicted_by_later_success :
    (processJobQueue false [Except.error "SMTP connection lost", Except.ok ()]
        { db := emptyJobsDb, queue := [jobA1, jobB1] }).2.1.queue = [jobB1]
    ∧ (processJobQueue false [Except.error "SMTP connection lost", Except.ok ()]
        { db := emptyJobsDb, queue := [jobA1, jobB1] }).2.1.db.jobs
        = [{ job := jobA1, status := JobStatus.failed, errorMessage := some "SMTP connection lost" },
           { job := jobB1, status := JobStatus.sent }]
    ∧ jobA1 ≠ jobB1 := by decide

/-- Counterexample to claim C2 as stated: with a persisted queue of 12
listings whose sends all succeed, the Bounded pass exhausts the bound
(12 sends), yet the cycle's trace shows the discovery call was made — and
made before the queue-processing pass — contradicting both that the Queue
Processor runs first and that exhausting the bound stops the cycle without
discovering new jobs.  (What is skipped is only the filter/enqueue/second
pass over the already-discovered listings.) -/
theorem claim2_counterexample_discovery_always_runs_first :
    (processJobQueue false (List.replicate 12 (Except.ok ()))
        { db := emptyJobsDb, queue := List.replicate 12 jobQ2 }).1 = MAX_EMAILS_PER_RUN
    ∧ (runJobApplicationCycle (some (prof2, [jobD2])) (List.replicate 12 (Except.ok ())) []
        { db := emptyJobsDb, queue := List.replicate 12 jobQ2 }).2
        = [CEvent.discover, CEvent.process] := by decide

/-- Case analysis of the post-discovery tail of the scheduled cycle. -/
lemma continueCycle_spec (jobs : List Job) (t2 : List (Except String Unit)) (s1 : SysState)
    (tr : List CEvent) :
    (jobs = [] → continueCycle jobs t2 s1 tr = (s1, tr))
    ∧ (filterNewJobs s1.db jobs = [] → continueCycle jobs t2 s1 tr = (s1, tr))
    ∧ (filterNewJobs s1.db jobs ≠ [] →
        continueCycle jobs t2 s1 tr
          = ((processJobQueue false t2
              { db := s1.db, queue := s1.queue ++ filterNewJobs s1.db jobs }).2.1,
            tr ++ [CEvent.enqueue (filterNewJobs s1.db jobs).length, CEvent.process])) := by
  refine ⟨?_, ?_, ?_⟩
  · intro h
    subst h
    simp [continueCycle]
  · intro h
    simp [continueCycle, h, addJobsToQueue]
  · intro h
    have hj : jobs ≠ [] := by
      intro hnil
      subst hnil
      exact h rfl
    simp [continueCycle, h, hj, addJobsToQueue]

/-- Claim C2 amended: discovery (the single Gemini call) runs unconditionally
at the start of every cycle, before any queue processing; with a non-empty
persisted queue the Bounded pass then runs, and if it reports at least
`MAX_EMAILS_PER_RUN` successful sends the cycle stops with the discovered
listings discarded (never filtered, enqueued or processed); only otherwise
are they filtered against contacted HR emails and companies, appended to the
queue, and processed by a second Bounded pass. -/
theorem claim2_amended_cycle_flow (p : Profile) (dJobs : List Job)
    (t1 t2 : List (Except String Unit)) (s : SysState) (hq : s.queue ≠ []) :
    (runJobApplicationCycle (some (p, dJobs)) t1 t2 s).2.head? = some CEvent.discover
    ∧ ((processJobQueue false t1 s).1 ≥ MAX_EMAILS_PER_RUN →
        runJobApplicationCycle (some (p, dJobs)) t1 t2 s
          = ((processJobQueue false t1 s).2.1, [CEvent.discover, CEvent.process]))
    ∧ ((processJobQueue false t1 s).1 < MAX_EMAILS_PER_RUN →
        (dJobs = [] →
          runJobApplicationCycle (some (p, dJobs)) t1 t2 s
            = ((processJobQueue false t1 s).2.1, [CEvent.discover, CEvent.process]))
        ∧ (filterNewJobs (processJobQueue false t1 s).2.1.db dJobs = [] →
          runJobApplicationCycle (some (p, dJobs)) t1 t2 s
            = ((processJobQueue false t1 s).2.1, [CEvent.discover, CEvent.process]))
        ∧ (filterNewJobs (processJobQueue false t1 s).2.1.db dJobs ≠ [] →
          runJobApplicationCycle (some (p, dJobs)) t1 t2 s
            = ((processJobQueue false t2
                { db := (processJobQueue false t1 s).2.1.db,
                  queue := (processJobQueue false t1 s).2.1.queue
                    ++ filterNewJobs (processJobQueue false t1 s).2.1.db dJobs }).2.1,
              [CEvent.discover, CEvent.process,
                CEvent.enqueue (filterNewJobs (processJobQueue false t1 s).2.1.db dJobs).length,
                CEvent.process]))) := by
  have hq' : 0 < s.queue.length := List.length_pos.mpr hq
  have hcc := continueCycle_spec dJobs t2 (processJobQueue false t1 s).2.1
    [CEvent.discover, CEvent.process]
  simp only [runJobApplicationCycle, gt_iff_lt, if_pos hq']
  split
  · rename_i hge
    exact ⟨rfl, fun _ => rfl, fun hlt => absurd hge (by omega)⟩
  · rename_i hge
    refine ⟨?_, fun h => absurd h hge, fun _ => ⟨?_, ?_, ?_⟩⟩
    · by_cases hf : filterNewJobs (processJobQueue false t1 s).2.1.db dJobs = []
      · by_cases hj : dJobs = []
        · rw [hcc.1 hj]
          rfl
        · rw [hcc.2.1 hf]
          rfl
      · rw [hcc.2.2 hf]
        rfl
    · intro hj
      exact hcc.1 hj
    · intro hf
      exact hcc.2.1 hf
    · intro hf
      rw [hcc.2.2 hf]
      rfl

/-- Witness for the amended C2 flow at a concrete non-exhausting run: one
queued send succeeds (1 < 12), so the discovered listing is filtered,
enqueued and processed by the second Bounded pass. -/
theorem claim2_amended_cycle_flow_witness :
    (runJobApplicationCycle (some (prof2, [jobD2])) [Except.ok ()] [Except.ok ()]
        { db := emptyJobsDb, queue := [jobQ2] }).2
      = [CEvent.discover, CEvent.process, CEvent.enqueue 1, CEvent.process] := by
  have h := claim2_amended_cycle_flow prof2 [jobD2] [Except.ok ()] [Except.ok ()]
    { db := emptyJobsDb, queue := [jobQ2] } (by decide)
  have h3 := (h.2.2 (by decide)).2.2 (by decide)
  rw [h3]
  decide

lemma grows_refl (l : List String) : grows l l := ⟨[], by simp⟩

lemma grows_app (l t : List String) : grows l (l ++ t) := ⟨t, rfl⟩

lemma grows_trans {a b c : List String} (h1 : grows a b) (h2 : grows b c) : grows a c := by
  obtain ⟨t1, rfl⟩ := h1
  obtain ⟨t2, rfl⟩ := h2
  exact ⟨t1 ++ t2, by simp⟩

lemma dedupGrows_refl (d : JobsDb) : dedupGrows d d := ⟨grows_refl _, grows_refl _⟩

lemma dedupGrows_trans {a b c : JobsDb} (h1 : dedupGrows a b) (h2 : dedupGrows b c) :
    dedupGrows a c :=
  ⟨grows_trans h1.1 h2.1, grows_trans h1.2 h2.2⟩

lemma dedupGrows_markJobSent (job : Job) (db : JobsDb) : dedupGrows db (markJobSent job db) :=
  ⟨grows_app _ _, grows_app _ _⟩

lemma dedupGrows_markJobFailed (job : Job) (msg : String) (db : JobsDb) :
    dedupGrows db (markJobFailed job msg db) :=
  ⟨grows_refl _, grows_app _ _⟩

lemma dedupGrows_processJob (job : Job) (t : Except String Unit) (s : SysState) :
    dedupGrows s.db (processJob job t s).2.db := by
  simp only [processJob]
  split
  · exact dedupGrows_markJobFailed _ _ _
  · split
    · exact dedupGrows_markJobSent _ _
    · exact dedupGrows_markJobFailed _ _ _

lemma dedupGrows_processSlice (jobs : List Job) (ts : List (Except String Unit)) (s : SysState) :
    dedupGrows s.db (processSlice jobs ts s).2.2.1.db := by
  induction jobs generalizing ts s with
  | nil => exact dedupGrows_refl _
  | cons job rest ih =>
    exact dedupGrows_trans (dedupGrows_processJob job (ts.headD (Except.ok ())) s)
      (ih ts.tail (processJob job (ts.headD (Except.ok ())) s).2)

lemma dedupGrows_processJobQueue (clearAll : Bool) (ts : List (Except String Unit))
    (s : SysState) : dedupGrows s.db (processJobQueue clearAll ts s).2.1.db := by
  simp only [processJobQueue]
  split
  · exact dedupGrows_refl _
  · exact dedupGrows_processSlice _ ts s

lemma dedupGrows_continueCycle (jobs : List Job) (t2 : List (Except String Unit))
    (s1 : SysState) (tr : List CEvent) : dedupGrows s1.db (continueCycle jobs t2 s1 tr).1.db := by
  simp only [continueCycle]
  split
  · exact dedupGrows_refl _
  · split
    · exact dedupGrows_refl _
    · exact dedupGrows_processJobQueue false t2 _

lemma dedupGrows_runCycle (d : Option (Profile × List Job)) (t1 t2 : List (Except String Unit))
    (s : SysState) : dedupGrows s.db (runJobApplicationCycle d t1 t2 s).1.db := by
  cases d with
  | none => exact dedupGrows_refl _
  | some pr =>
    obtain ⟨p, jobs⟩ := pr
    simp only [runJobApplicationCycle]
    split
    · split
      · exact dedupGrows_processJobQueue false t1 s
      · exact dedupGrows_trans (dedupGrows_processJobQueue false t1 s)
          (dedupGrows_continueCycle jobs t2 _ _)
    · exact dedupGrows_continueCycle jobs t2 s _

lemma dedupGrows_applyOp (op : Op) (s : SysState) : dedupGrows s.db (applyOp op s).db := by
  cases op with
  | markSent job => exact dedupGrows_markJobSent job s.db
  | markFailed job msg => exact dedupGrows_markJobFailed job msg s.db
  | addJobs jobs => exact dedupGrows_refl _
  | removeFront => exact dedupGrows_refl _
  | processQueue clearAll ts => exact dedupGrows_processJobQueue clearAll ts s
  | runCycle d t1 t2 => exact dedupGrows_runCycle d t1 t2 s

lemma dedupGrows_applyOps (ops : List Op) (s : SysState) :
    dedupGrows s.db (applyOps ops s).db := by
  induction ops generalizing s with
  | nil => exact dedupGrows_refl _
  | cons op rest ih => exact dedupGrows_trans (dedupGrows_applyOp op s) (ih (applyOp op s))

/-- Membership in a string list survives appending. -/
lemma contains_mono (l t : List String) (a : String) (h : l.contains a = true) :
    (l ++ t).contains a = true := by
  simp only [List.elem_iff] at h ⊢
  exact List.mem_append_left t h

/-- Claim C6: over any sequence of the system's operations, the dedup sets
`sentEmails` and `sentCompanies` only ever gain entries (each final set is the
initial set plus an appended tail), so once `isCompanySent` holds for a
company it keeps holding after arbitrarily many further operations and
cycles. -/
theorem claim6_dedup_sets_append_only (ops : List Op) (s : SysState) (c : String) :
    (∃ t, (applyOps ops s).db.sentEmails = s.db.sentEmails ++ t)
    ∧ (∃ t, (applyOps ops s).db.sentCompanies = s.db.sentCompanies ++ t)
    ∧ (isCompanySent s.db c = true → isCompanySent (applyOps ops s).db c = true) := by
  have h := dedupGrows_applyOps ops s
  refine ⟨h.1, h.2, fun hc => ?_⟩
  obtain ⟨t, ht⟩ := h.2
  simp only [isCompanySent] at hc ⊢
  rw [ht]
  exact contains_mono _ _ _ hc

/-- Witness for C6: a company recorded by a failed attempt stays contacted
after a further processor run and a full (skipped) cycle. -/
theorem claim6_dedup_sets_append_only_witness :
    isCompanySent
      (applyOps [Op.markFailed j6 "boom", Op.processQueue false [], Op.runCycle none [] []]
        { db := { sentCompanies := ["acme"] }, queue := [] }).db "Acme" = true :=
  (claim6_dedup_sets_append_only
    [Op.markFailed j6 "boom", Op.processQueue false [], Op.runCycle none [] []]
    { db := { sentCompanies := ["acme"] }, queue := [] } "Acme").2.2 (by decide)

/-- Each processed listing appends exactly one history record for itself,
whatever the outcome. -/
lemma processJob_record (job : Job) (t : Except String Unit) (s : SysState) :
    (processJob job t s).2.db.jobs.map (fun r => r.job)
      = s.db.jobs.map (fun r => r.job) ++ [job] := by
  simp only [processJob]
  split
  · simp [markJobFailed]
  · split
    · simp [markJobSent]
    · simp [markJobFailed]

/-- A processor loop appends one history record per slice entry, in order. -/
lemma processSlice_records (jobs : List Job) (ts : List (Except String Unit)) (s : SysState) :
    (processSlice jobs ts s).2.2.1.db.jobs.map (fun r => r.job)
      = s.db.jobs.map (fun r => r.job) ++ jobs := by
  induction jobs generalizing ts s with
  | nil => simp [processSlice]
  | cons job rest ih =>
    have hstep := processJob_record job (ts.headD (Except.ok ())) s
    have htail := ih ts.tail (processJob job (ts.headD (Except.ok ())) s).2
    calc (processSlice (job :: rest) ts s).2.2.1.db.jobs.map (fun r => r.job)
        = (processSlice rest ts.tail
            (processJob job (ts.headD (Except.ok ())) s).2).2.2.1.db.jobs.map (fun r => r.job) := rfl
      _ = s.db.jobs.map (fun r => r.job) ++ job :: rest := by rw [htail, hstep]; simp

/-- Claim C7: a discovery batch of two or more listings that all name the same
not-yet-contacted company passes the already-contacted filter in full (each
listing is tested only against the persisted history, with no in-batch
deduplication), and in the same cycle every one of them is enqueued and given
a send attempt — one history record per listing — with no re-check at send
time. -/
theorem claim7_same_company_batch_all_processed (db : JobsDb) (batch : List Job) (c : String)
    (p : Profile) (t1 t2 : List (Except String Unit))
    (hlen2 : 2 ≤ batch.length) (hcap : batch.length ≤ MAX_EMAILS_PER_RUN)
    (hc : ∀ j ∈ batch, j.company = c)
    (hcomp : isCompanySent db c = false)
    (hhr : ∀ j ∈ batch, truthy j.hrEmail = true → isEmailSent db (orEmpty j.hrEmail) = false) :
    filterNewJobs db batch = batch
    ∧ (runJobApplicationCycle (some (p, batch)) t1 t2 { db := db, queue := [] }).1.db.jobs.map
          (fun r => r.job)
        = db.jobs.map (fun r => r.job) ++ batch := by
  have hb : batch ≠ [] := by
    intro h
    rw [h] at hlen2
    simp at hlen2
  have hfilter : filterNewJobs db batch = batch := by
    apply List.filter_eq_self.mpr
    intro j hj
    have hcj : isCompanySent db j.company = false := by rw [hc j hj]; exact hcomp
    by_cases ht : truthy j.hrEmail
    · simp [ht, hhr j hj ht, hcj]
    · simp [ht, hcj]
  refine ⟨hfilter, ?_⟩
  have hrun : runJobApplicationCycle (some (p, batch)) t1 t2 { db := db, queue := [] }
      = continueCycle batch t2 { db := db, queue := [] } [CEvent.discover] := by
    simp [runJobApplicationCycle]
  have hcc := (continueCycle_spec batch t2 { db := db, queue := [] } [CEvent.discover]).2.2
    (by rw [hfilter]; exact hb)
  rw [hrun, hcc]
  rw [hfilter]
  have hq0 : (({ db := db, queue := [] ++ batch } : SysState)).queue.length ≠ 0 := by
    simp [hb]
  have : processJobQueue false t2 { db := db, queue := [] ++ batch }
      = (fun r => (r.1, r.2.2.1, r.2.2.2))
          (processSlice (([] ++ batch).take MAX_EMAILS_PER_RUN) t2
            { db := db, queue := [] ++ batch }) := by
    simp only [processJobQueue, if_neg hq0, Bool.false_eq_true, if_false]
  rw [this]
  simp only [List.nil_append]
  rw [List.take_of_length_le hcap]
  exact processSlice_records batch t2 { db := db, queue := batch }

/-- Witness for C7: two listings for the same fresh company both pass the
filter and both receive a send attempt in one cycle. -/
theorem claim7_same_company_batch_all_processed_witness :
    filterNewJobs emptyJobsDb [j7a, j7b] = [j7a, j7b]
    ∧ (runJobApplicationCycle (some (p7, [j7a, j7b])) [] [Except.ok (), Except.ok ()]
        { db := emptyJobsDb, queue := [] }).1.db.jobs.map (fun r => r.job) = [j7a, j7b] := by
  have h := claim7_same_company_batch_all_processed emptyJobsDb [j7a, j7b] "Orion AI" p7 []
    [Except.ok (), Except.ok ()] (by decide) (by decide) (by decide) (by decide) (by decide)
  exact ⟨h.1, h.2.trans (by decide)⟩
